import Mathlib

/-!
Verification of the dynamic-document merge/override engine, the template
schema validator and the Python mutation pipeline of the bundle CLI.

Definitions are shallow embeddings of the Go source under review
(`bundle/config/mutator/python/python_mutator.go`, `libs/template/schema.go`;
components available only through their callers and tests are modelled from
the specification and say so in their doc comments). Machine floats are
modelled as exact rationals.
-/

namespace Spec2Proof

/-- A source location attached to every document value:
`dyn.Location {File, Line, Column}`. -/
structure Location where
  file : String
  line : Nat
  column : Nat
deriving DecidableEq, Repr

/-- One component of a `dyn.Path`: a mapping key or a sequence index. -/
inductive PathComponent where
  | key (s : String)
  | index (i : Nat)
deriving DecidableEq, Repr

/-- `dyn.Path`: ordered sequence of components addressing a node. -/
abbrev DynPath := List PathComponent

/-- Modelled from the spec: `dyn.Path.HasPrefix` (the `libs/dyn` package is
not under review, only its callers). `P.hasPrefix(Q)` holds when `Q` is an
initial segment of `P`. -/
def startsWithPath : DynPath → DynPath → Bool
  | _, [] => true
  | [], _ :: _ => false
  | a :: as, b :: bs => a == b && startsWithPath as bs

/-- Renders the non-leading components of a path: keys get a leading dot,
indices are bracketed with no dot. -/
def renderRest : DynPath → String
  | [] => ""
  | .key s :: cs => "." ++ s ++ renderRest cs
  | .index i :: cs => "[" ++ toString i ++ "]" ++ renderRest cs

/-- Modelled from the spec: `dyn.Path.String` canonical rendering, dotted
keys and bracketed indices (`resources.jobs.job0.tasks[0]`, `include[0]`). -/
def pathString : DynPath → String
  | [] => ""
  | .key s :: cs => s ++ renderRest cs
  | .index i :: cs => "[" ++ toString i ++ "]" ++ renderRest cs

/-- The error message every policy rejection produces in
`python_mutator.go`: `unexpected change at "<path>" (<op>)`. -/
def unexpectedChange (op : String) (p : DynPath) : String :=
  "unexpected change at \"" ++ pathString p ++ "\" (" ++ op ++ ")"

/-- `dyn.Value`: tagged document value, every node carrying a `Location`. -/
inductive Value where
  | vnull : Location → Value
  | vbool : Bool → Location → Value
  | vint : Int → Location → Value
  | vnum : ℚ → Location → Value
  | vstr : String → Location → Value
  | vseq : List Value → Location → Value
  | vmap : List (String × Value) → Location → Value

/-- The location carried by a value. -/
def Value.loc : Value → Location
  | .vnull l => l
  | .vbool _ l => l
  | .vint _ l => l
  | .vnum _ l => l
  | .vstr _ l => l
  | .vseq _ l => l
  | .vmap _ l => l

/-- `merge.OverrideVisitor`: the three per-path callbacks of a merge
policy. `VisitDelete` returns `error|nil`, the other two `Value|error`. -/
structure OverrideVisitor where
  visitDelete : DynPath → Value → Except String Unit
  visitInsert : DynPath → Value → Except String Value
  visitUpdate : DynPath → Value → Value → Except String Value

/-- `jobsPath` in `python_mutator.go`: the collection root `resources.jobs`. -/
def jobsPath : DynPath := [.key "resources", .key "jobs"]

/-- `createLoadOverrideVisitor`: load-phase (append-only) policy. Rejects
every delete and update; accepts an insert only at a path exactly one
component below `resources.jobs`. -/
def createLoadOverrideVisitor : OverrideVisitor where
  visitDelete := fun valuePath _left =>
    .error (unexpectedChange "delete" valuePath)
  visitInsert := fun valuePath right =>
    if !(startsWithPath valuePath jobsPath) then
      .error (unexpectedChange "insert" valuePath)
    else
      -- insertResource := len(valuePath) == len(jobsPath)+1
      if !(valuePath.length == jobsPath.length + 1) then
        .error (unexpectedChange "insert" valuePath)
      else
        .ok right
  visitUpdate := fun valuePath _left _right =>
    .error (unexpectedChange "update" valuePath)

/-- `createInitOverrideVisitor`: init-phase (amend) policy. Changes are
confined under `resources.jobs`; deleting a whole entry (exactly one
component below the root) is rejected, deeper deletes and any updates or
inserts under the root are accepted. -/
def createInitOverrideVisitor : OverrideVisitor where
  visitDelete := fun valuePath _left =>
    if !(startsWithPath valuePath jobsPath) then
      .error (unexpectedChange "delete" valuePath)
    else
      -- deleteResource := len(valuePath) == len(jobsPath)+1
      if valuePath.length == jobsPath.length + 1 then
        .error (unexpectedChange "delete" valuePath)
      else
        .ok ()
  visitInsert := fun valuePath right =>
    if !(startsWithPath valuePath jobsPath) then
      .error (unexpectedChange "insert" valuePath)
    else
      .ok right
  visitUpdate := fun valuePath _left right =>
    if !(startsWithPath valuePath jobsPath) then
      .error (unexpectedChange "update" valuePath)
    else
      .ok right

/-- The mutator phases, `load` run before `init`. -/
inductive Phase where
  | load
  | init
deriving DecidableEq, Repr

/-- `createOverrideVisitor`: selects the policy for a phase. -/
def createOverrideVisitor : Phase → OverrideVisitor
  | .load => createLoadOverrideVisitor
  | .init => createInitOverrideVisitor

/-! ### Template schema (`libs/template/schema.go`) -/

/-- A config value as produced by the generic JSON decoder feeding
`castFloatToInt` and `ValidateConfig`: all numbers arrive as floats
(modelled as exact rationals); `cint` appears only after coercion. -/
inductive CValue where
  | cstr (s : String)
  | cnum (q : ℚ)
  | cint (n : Int)
  | cbool (b : Bool)
  | cnull
deriving DecidableEq, Repr

/-- `PropertyType`: the declared type of a schema property. -/
inductive PropertyType where
  | string
  | integer
  | number
  | boolean
deriving DecidableEq, Repr

/-- `Property {Type, Description}`. -/
structure SchemaProperty where
  type : PropertyType
  description : String
deriving DecidableEq, Repr

/-- `Schema {Properties}`: map from property name to its declaration,
modelled as an association list. -/
structure Schema where
  properties : List (String × SchemaProperty)
deriving DecidableEq, Repr

/-- Key lookup in the schema's property map. -/
def Schema.lookup (s : Schema) (k : String) : Option SchemaProperty :=
  (s.properties.find? (fun kv => kv.1 == k)).map (fun kv => kv.2)

/-- Key lookup in a config map. -/
def lookupConfig (config : List (String × CValue)) (k : String) : Option CValue :=
  (config.find? (fun kv => kv.1 == k)).map (fun kv => kv.2)

/-- Truncation toward zero, the meaning of Go's `int(v)` conversion for an
in-range float, on the rational model. -/
def ratTrunc (q : ℚ) : Int :=
  q.num.tdiv q.den

/-- `isIntegerValue`: `v == float64(int(v))`, i.e. the value is unchanged
by truncation toward zero. -/
def isIntegerValue (v : ℚ) : Bool :=
  v == ((ratTrunc v : Int) : ℚ)

/-- Structured rendering of the template errors of `schema.go`; each
constructor carries exactly the data interpolated into the Go message. -/
inductive TemplateError where
  | undeclaredKey (key : String)
  | notAnInteger (key : String) (value : ℚ)
  | incorrectType (key : String) (declared : PropertyType)
  | missingKey (key : String)
deriving DecidableEq, Repr

/-- The per-key body of `castFloatToInt`: an undeclared key is an error;
a non-integer-typed key is skipped; a float under an integer-typed key is
truncated exactly when it has an integer value, else
`expected <k> to have integer value but it is <v>`. -/
def castEntry (schema : Schema) (kv : String × CValue) :
    Except TemplateError (String × CValue) :=
  match schema.lookup kv.1 with
  | none => .error (.undeclaredKey kv.1)
  | some fieldInfo =>
    if fieldInfo.type == PropertyType.integer then
      match kv.2 with
      | .cnum q =>
        if isIntegerValue q then .ok (kv.1, .cint (ratTrunc q))
        else .error (.notAnInteger kv.1 q)
      | v => .ok (kv.1, v)
    else
      .ok kv

/-- `castFloatToInt`: walks the config and coerces float values of
integer-typed keys, failing on the first violation. -/
def castFloatToInt (config : List (String × CValue)) (schema : Schema) :
    Except TemplateError (List (String × CValue)) :=
  match config with
  | [] => .ok []
  | kv :: rest =>
    match castEntry schema kv with
    | .error e => .error e
    | .ok kv2 =>
      match castFloatToInt rest schema with
      | .error e => .error e
      | .ok rest2 => .ok (kv2 :: rest2)

/-- Modelled from the spec: the validator table of `validateType`
(`libs/template/validators.go` is not under review); a value passes the
validator of its declared type iff its runtime kind matches the type
exactly after coercion. -/
def validateType (v : CValue) (t : PropertyType) : Bool :=
  match t, v with
  | .string, .cstr _ => true
  | .integer, .cint _ => true
  | .number, .cnum _ => true
  | .boolean, .cbool _ => true
  | _, _ => false

/-- First loop of `ValidateConfig`: every config key must be declared and
its value must pass the declared type's validator. -/
def checkConfigKeys (schema : Schema) :
    List (String × CValue) → Except TemplateError Unit
  | [] => .ok ()
  | (k, v) :: rest =>
    match schema.lookup k with
    | none => .error (.undeclaredKey k)
    | some fieldMetadata =>
      if validateType v fieldMetadata.type then checkConfigKeys schema rest
      else .error (.incorrectType k fieldMetadata.type)

/-- Second loop of `ValidateConfig`: every schema key must be present in
the config. -/
def checkSchemaKeys (config : List (String × CValue)) :
    List (String × SchemaProperty) → Except TemplateError Unit
  | [] => .ok ()
  | (k, _) :: rest =>
    match lookupConfig config k with
    | none => .error (.missingKey k)
    | some _ => checkSchemaKeys config rest

/-- `Schema.ValidateConfig`: both loops in order. -/
def ValidateConfig (schema : Schema) (config : List (String × CValue)) :
    Except TemplateError Unit :=
  match checkConfigKeys schema config with
  | .error e => .error e
  | .ok _ => checkSchemaKeys config schema.properties

/-- The value `5/2`, a float with a nonzero fractional part. -/
def fiveHalves : ℚ := ⟨5, 2, by norm_num, by norm_num⟩

/-! ### Merge/override engine and pipeline (modelled components) -/

mutual

/-- Deep equality of values ignoring locations (spec §4.1), used by the
merge engine to decide whether a node differs. -/
def valueEq : Value → Value → Bool
  | .vnull _, .vnull _ => true
  | .vbool a _, .vbool b _ => a == b
  | .vint a _, .vint b _ => a == b
  | .vnum a _, .vnum b _ => a == b
  | .vstr a _, .vstr b _ => a == b
  | .vseq xs _, .vseq ys _ => valueListEq xs ys
  | .vmap xs _, .vmap ys _ => entriesEq xs ys
  | _, _ => false

/-- Elementwise `valueEq` on sequences. -/
def valueListEq : List Value → List Value → Bool
  | [], [] => true
  | x :: xs, y :: ys => valueEq x y && valueListEq xs ys
  | _, _ => false

/-- Keywise `valueEq` on mapping entries, order-sensitive. -/
def entriesEq : List (String × Value) → List (String × Value) → Bool
  | [], [] => true
  | (k, x) :: xs, (l, y) :: ys => k == l && valueEq x y && entriesEq xs ys
  | _, _ => false

end

/-- Key lookup in mapping entries. -/
def lookupEntry (entries : List (String × Value)) (k : String) : Option Value :=
  (entries.find? (fun kv => kv.1 == k)).map (fun kv => kv.2)

/-- Keys present only in the overlay entries: each is offered to
`visitInsert` and, if accepted, appended to the merged mapping. -/
def insertNewEntries (path : DynPath) (ls rs : List (String × Value))
    (vis : OverrideVisitor) : Except String (List (String × Value)) :=
  match rs with
  | [] => .ok []
  | (k, rv) :: rest =>
    match lookupEntry ls k with
    | some _ => insertNewEntries path ls rest vis
    | none =>
      match vis.visitInsert (path ++ [.key k]) rv with
      | .error e => .error e
      | .ok nv =>
        match insertNewEntries path ls rest vis with
        | .error e => .error e
        | .ok tail => .ok ((k, nv) :: tail)

mutual

/-- Modelled from the spec §4.5: `merge.Override` (the `libs/dyn/merge`
package is not under review). Walks base and overlay in lock-step by path;
a node present only in the overlay goes to `visitInsert`, only in the base
to `visitDelete`, present in both but different to `visitUpdate`; recursion
continues only while the two nodes are structurally comparable; any
callback error aborts the whole merge. -/
def overrideValue (path : DynPath) (left right : Value)
    (vis : OverrideVisitor) : Except String Value :=
  match left, right with
  | .vmap ls lloc, .vmap rs _ =>
    (match overrideLeftEntries path ls rs vis with
     | .error e => .error e
     | .ok kept =>
       match insertNewEntries path ls rs vis with
       | .error e => .error e
       | .ok added => .ok (.vmap (kept ++ added) lloc))
  | .vseq ls lloc, .vseq rs rloc =>
    if ls.length == rs.length then
      (match overrideList path 0 ls rs vis with
       | .error e => .error e
       | .ok merged => .ok (.vseq merged lloc))
    else
      vis.visitUpdate path (.vseq ls lloc) (.vseq rs rloc)
  | l, r =>
    if valueEq l r then .ok l
    else vis.visitUpdate path l r

/-- The base-side walk of a mapping: keys present in both sides recurse,
keys present only in the base go to `visitDelete` and are dropped when the
delete is permitted. -/
def overrideLeftEntries (path : DynPath) (ls rs : List (String × Value))
    (vis : OverrideVisitor) : Except String (List (String × Value)) :=
  match ls with
  | [] => .ok []
  | (k, lv) :: rest =>
    match lookupEntry rs k with
    | some rv =>
      (match overrideValue (path ++ [.key k]) lv rv vis with
       | .error e => .error e
       | .ok m =>
         match overrideLeftEntries path rest rs vis with
         | .error e => .error e
         | .ok tail => .ok ((k, m) :: tail))
    | none =>
      match vis.visitDelete (path ++ [.key k]) lv with
      | .error e => .error e
      | .ok _ => overrideLeftEntries path rest rs vis

/-- Lock-step walk of two equally long sequences. -/
def overrideList (path : DynPath) (i : Nat) (ls rs : List Value)
    (vis : OverrideVisitor) : Except String (List Value) :=
  match ls, rs with
  | x :: xs, y :: ys =>
    (match overrideValue (path ++ [.index i]) x y vis with
     | .error e => .error e
     | .ok z =>
       match overrideList path (i + 1) xs ys vis with
       | .error e => .error e
       | .ok zs => .ok (z :: zs))
  | _, _ => .ok []

end

/-- A location-free parse tree: what the plugin's output file holds before
the loader attaches locations. -/
inductive Raw where
  | rnull
  | rbool (b : Bool)
  | rint (n : Int)
  | rnum (q : ℚ)
  | rstr (s : String)
  | rseq (xs : List Raw)
  | rmap (entries : List (String × Raw))

mutual

/-- Modelled from the spec §4.3: `yamlloader.LoadYAML` pointed at a
virtual file path (the loader package is not under review). Every node of
the result carries the virtual path as its `Location.file`; line and
column, which come from the physical text and are irrelevant to the claims
here, are modelled as zero. -/
def loadValue (file : String) : Raw → Value
  | .rnull => .vnull ⟨file, 0, 0⟩
  | .rbool b => .vbool b ⟨file, 0, 0⟩
  | .rint n => .vint n ⟨file, 0, 0⟩
  | .rnum q => .vnum q ⟨file, 0, 0⟩
  | .rstr s => .vstr s ⟨file, 0, 0⟩
  | .rseq xs => .vseq (loadValueList file xs) ⟨file, 0, 0⟩
  | .rmap es => .vmap (loadValueEntries file es) ⟨file, 0, 0⟩

/-- `loadValue` over a sequence. -/
def loadValueList (file : String) : List Raw → List Value
  | [] => []
  | x :: xs => loadValue file x :: loadValueList file xs

/-- `loadValue` over mapping entries. -/
def loadValueEntries (file : String) : List (String × Raw) → List (String × Value)
  | [] => []
  | (k, x) :: xs => (k, loadValue file x) :: loadValueEntries file xs

end

mutual

/-- Whether every node of a value carries `f` as its location file. -/
def allLocFile (f : String) : Value → Bool
  | .vnull l => l.file == f
  | .vbool _ l => l.file == f
  | .vint _ l => l.file == f
  | .vnum _ l => l.file == f
  | .vstr _ l => l.file == f
  | .vseq xs l => l.file == f && allLocFileList f xs
  | .vmap es l => l.file == f && allLocFileEntries f es

/-- `allLocFile` over a sequence. -/
def allLocFileList (f : String) : List Value → Bool
  | [] => true
  | x :: xs => allLocFile f x && allLocFileList f xs

/-- `allLocFile` over mapping entries. -/
def allLocFileEntries (f : String) : List (String × Value) → Bool
  | [] => true
  | (_, x) :: xs => allLocFile f x && allLocFileEntries f xs

end

/-- The virtual path of `runPythonMutator`:
`filepath.Abs(filepath.Join(rootPath, "__generated_by_pydabs__.yml"))`,
for an absolute `rootPath` (on which `Abs` is the identity and `Join`
inserts one separator). -/
def virtualPath (rootPath : String) : String :=
  rootPath ++ "/__generated_by_pydabs__.yml"

/-- Node addressing into a value tree. -/
def getAtPath (v : Value) (p : DynPath) : Option Value :=
  match p, v with
  | [], v => some v
  | .key k :: rest, .vmap es _ =>
    match lookupEntry es k with
    | some child => getAtPath child rest
    | none => none
  | .index i :: rest, .vseq xs _ =>
    match xs.get? i with
    | some child => getAtPath child rest
    | none => none
  | _, _ => none

/-- Diagnostic severity. -/
inductive Severity where
  | sevError
  | sevWarning
deriving DecidableEq, Repr

/-- A normalization diagnostic: severity plus summary. -/
structure Diagnostic where
  severity : Severity
  summary : String
deriving DecidableEq, Repr

/-- `diag.Diagnostics.Error()`: the first error-severity diagnostic. -/
def firstErrorDiag (ds : List Diagnostic) : Option Diagnostic :=
  ds.find? (fun d => d.severity == Severity.sevError)

/-- `diagnostic.Filter(diag.Warning)`: the warning-severity diagnostics. -/
def warningDiags (ds : List Diagnostic) : List Diagnostic :=
  ds.filter (fun d => d.severity == Severity.sevWarning)

/-- The post-normalization checks of `runPythonMutator` (lines 210-222):
an error diagnostic fails the run; otherwise the first warning diagnostic
is escalated to a fatal error carrying its summary; otherwise the
normalized output is returned. -/
def processOutput (normalized : Value) (ds : List Diagnostic) :
    Except String Value :=
  match firstErrorDiag ds with
  | some d => .error ("failed to normalize Python mutator output: " ++ d.summary)
  | none =>
    match warningDiags ds with
    | [] => .ok normalized
    | d :: _ => .error ("failed to normalize Python mutator output: " ++ d.summary)

/-- Modelled from the spec: `config.Root.Mutate` (the `bundle/config`
package root is not under review): a scoped transaction that installs the
computed tree only on success and keeps the old tree on error. -/
def mutateConfig (doc : Value) (f : Value → Except String Value) :
    Value × Option String :=
  match f doc with
  | .ok v => (v, none)
  | .error e => (doc, some e)

/-- One phase of the mutation pipeline after the plugin produced `output`
with normalization diagnostics `ds`: escalate diagnostics, then merge the
output into the current document under the phase's policy, inside the
`Mutate` transaction. -/
def pythonMutatorStep (ph : Phase) (doc : Value) (output : Value)
    (ds : List Diagnostic) : Value × Option String :=
  mutateConfig doc (fun leftRoot =>
    match processOutput output ds with
    | .error e => .error e
    | .ok rightRoot => overrideValue [] leftRoot rightRoot (createOverrideVisitor ph))

/-- Modelled from the spec: `os.MkdirTemp("", "-pydabs")`, a gensym
returning a fresh directory name per call; freshness is modelled by a
counter threaded through calls, names being pairwise distinct. -/
def mkTempName (n : Nat) : String :=
  "/tmp/" ++ String.mk (List.replicate n 'x') ++ "-pydabs"

/-- `createCacheDir`: with the cache-root environment variable set, the
fixed subdirectory `<tempdir>/default/pydabs` (`default` standing for the
not-yet-selected target); otherwise a fresh unique temp directory per
call. The directory-creation side effect has no bearing on the returned
path and is not modelled. -/
def createCacheDir (tempDirEnv : Option String) (fresh : Nat) : String × Nat :=
  match tempDirEnv with
  | some tempDir => (tempDir ++ "/default/pydabs", fresh)
  | none => (mkTempName fresh, fresh + 1)

/-- `config.PyDABs {Enabled, VEnvPath}`. -/
structure PyDABs where
  enabled : Bool
  venvPath : String
deriving DecidableEq, Repr

/-- `config.Experimental {PyDABs}`. -/
structure Experimental where
  pydabs : PyDABs
deriving DecidableEq, Repr

/-- `getExperimental`: the zero value when the section is absent. -/
def getExperimental (e : Option Experimental) : Experimental :=
  match e with
  | none => ⟨⟨false, ""⟩⟩
  | some x => x

/-- The gate of `pythonMutator.Apply` (lines 79-88) around the rest of the
pipeline `run`: returns the final document, the diagnostic error if any,
and whether the external-process machinery was reached at all. -/
def applyPythonMutator (experimental : Option Experimental) (doc : Value)
    (run : Value → Except String Value) : Value × Option String × Bool :=
  let e := getExperimental experimental
  if !e.pydabs.enabled then
    (doc, none, false)
  else if e.pydabs.venvPath == "" then
    (doc, some "\"experimental.pydabs.enabled\" can only be used when \"experimental.pydabs.venv_path\" is set", false)
  else
    ((mutateConfig doc run).1, (mutateConfig doc run).2, true)

/-! ### Cross-file conflict detector (modelled from the spec §4.6) -/

/-- One scanned declaration: an entity name under some kind-specific
section, with the location where it was written. -/
structure ResourceDecl where
  name : String
  kind : String
  loc : Location
deriving DecidableEq, Repr

/-- `file:line:column` rendering of a location. -/
def renderLocation (l : Location) : String :=
  l.file ++ ":" ++ toString l.line ++ ":" ++ toString l.column

/-- `<kind> at <file>:<line>:<col>` rendering of one occurrence. -/
def renderOccurrence (d : ResourceDecl) : String :=
  d.kind ++ " at " ++ renderLocation d.loc

/-- The conflict error message:
`multiple resources named <name> (<occ>, <occ>[, ...])`. -/
def conflictMessage (name : String) (ds : List ResourceDecl) : String :=
  "multiple resources named " ++ name ++ " ("
    ++ String.intercalate ", " (ds.map renderOccurrence) ++ ")"

/-- How many scanned declarations use the name `n`. -/
def nameCount (ds : List ResourceDecl) (n : String) : Nat :=
  (ds.filter (fun d => d.name == n)).length

/-- The first name, in scan order, declared more than once. -/
def firstDup (ds : List ResourceDecl) : Option String :=
  (ds.map (fun d => d.name)).find? (fun n => decide (2 ≤ nameCount ds n))

/-- Modelled from the spec §4.6: the cross-file conflict detector (its
implementation is not under review, only its tests). Declarations are
given in file-scan order, top-level file first, included files in include
order; a duplicated name fails the load with a single error listing every
occurrence of that name, comma-joined, in scan order. -/
def checkUniqueResourceNames (ds : List ResourceDecl) : Except String Unit :=
  match firstDup ds with
  | some n => .error (conflictMessage n (ds.filter (fun d => d.name == n)))
  | none => .ok ()

/-! ### Concrete scenario data (mirroring the tests) -/

/-- Location of `job0.name` in the test's `databricks.yml`. -/
def dbLoc : Location := ⟨"databricks.yml", 9, 13⟩

/-- The base document of the init-phase scenario: one job `job0` with a
`name`, every node located in `databricks.yml`. -/
def baseDoc : Value :=
  .vmap [("resources", .vmap [("jobs", .vmap [("job0",
    .vmap [("name", .vstr "job_0" dbLoc)]
      ⟨"databricks.yml", 8, 9⟩)] ⟨"databricks.yml", 7, 7⟩)]
      ⟨"databricks.yml", 6, 5⟩)] ⟨"databricks.yml", 1, 1⟩

/-- The plugin's init-phase output: `job0` with the unchanged `name` and a
new `description`, as location-free parsed text. -/
def pluginRaw : Raw :=
  .rmap [("resources", .rmap [("jobs", .rmap [("job0",
    .rmap [("name", .rstr "job_0"), ("description", .rstr "my job")])])])]

/-- The project root of the scenario, an absolute path. -/
def projectRoot : String := "/project"

/-- Path of the untouched `name` field. -/
def nameFieldPath : DynPath :=
  [.key "resources", .key "jobs", .key "job0", .key "name"]

/-- Path of the plugin-added `description` field. -/
def descFieldPath : DynPath :=
  [.key "resources", .key "jobs", .key "job0", .key "description"]

/-- The expected result of the init-phase merge: `name` kept from the base
with its original location, `description` added from the overlay with the
virtual generated-file location. -/
def mergedDoc : Value :=
  .vmap [("resources", .vmap [("jobs", .vmap [("job0",
    .vmap [("name", .vstr "job_0" dbLoc),
           ("description", .vstr "my job" ⟨virtualPath projectRoot, 0, 0⟩)]
      ⟨"databricks.yml", 8, 9⟩)] ⟨"databricks.yml", 7, 7⟩)]
      ⟨"databricks.yml", 6, 5⟩)] ⟨"databricks.yml", 1, 1⟩

/-- The two conflicting declarations of the no-subconfigurations test:
`foo` as a job and as a pipeline in the same file. -/
def conflictDemo : List ResourceDecl :=
  [⟨"foo", "job",
     ⟨"conflicting_resource_ids/no_subconfigurations/databricks.yml", 10, 7⟩⟩,
   ⟨"foo", "pipeline",
     ⟨"conflicting_resource_ids/no_subconfigurations/databricks.yml", 13, 7⟩⟩]

/-! ## Theorems -/

section VisitorTheorems

/-- C1: the load-phase visitor rejects every delete and every update with
an error carrying the path and the operation kind, and an insert succeeds
(returning the inserted value) iff the path extends `resources.jobs` by
exactly one component; otherwise the insert is rejected with an error
carrying the path and the kind. -/
theorem load_visitor_append_only
    (p : DynPath) (l r : Value) :
    createLoadOverrideVisitor.visitDelete p l
        = .error (unexpectedChange "delete" p)
    ∧ createLoadOverrideVisitor.visitUpdate p l r
        = .error (unexpectedChange "update" p)
    ∧ (createLoadOverrideVisitor.visitInsert p r = .ok r
        ↔ startsWithPath p jobsPath = true ∧ p.length = jobsPath.length + 1)
    ∧ (¬(startsWithPath p jobsPath = true ∧ p.length = jobsPath.length + 1) →
        createLoadOverrideVisitor.visitInsert p r
          = .error (unexpectedChange "insert" p)) := by
  refine ⟨rfl, rfl, ?_, ?_⟩
  · constructor
    · intro h
      by_cases hp : startsWithPath p jobsPath = true
      · by_cases hl : p.length = jobsPath.length + 1
        · exact ⟨hp, hl⟩
        · exfalso
          simp [createLoadOverrideVisitor, hp, hl] at h
      · exfalso
        rw [Bool.not_eq_true] at hp
        simp [createLoadOverrideVisitor, hp] at h
    · rintro ⟨hp, hl⟩
      simp [createLoadOverrideVisitor, hp, hl]
  · intro hneg
    by_cases hp : startsWithPath p jobsPath = true
    · have hl : ¬ p.length = jobsPath.length + 1 := fun hl => hneg ⟨hp, hl⟩
      simp [createLoadOverrideVisitor, hp, hl]
    · rw [Bool.not_eq_true] at hp
      simp [createLoadOverrideVisitor, hp]

/-- Witness for C1 at the paths used by the tests: an insert of
`resources.jobs.job0.description` (a new field of an existing entry) is
rejected with the exact message the test expects. -/
theorem load_visitor_append_only_witness :
    (¬(startsWithPath [PathComponent.key "resources", PathComponent.key "jobs",
          PathComponent.key "job0", PathComponent.key "description"] jobsPath = true
        ∧ ([PathComponent.key "resources", PathComponent.key "jobs",
          PathComponent.key "job0", PathComponent.key "description"] : DynPath).length
            = jobsPath.length + 1))
    ∧ createLoadOverrideVisitor.visitInsert
        [PathComponent.key "resources", PathComponent.key "jobs",
          PathComponent.key "job0", PathComponent.key "description"]
        (Value.vstr "job description" ⟨"", 0, 0⟩)
      = .error "unexpected change at \"resources.jobs.job0.description\" (insert)" := by
  refine ⟨by decide, ?_⟩
  have h := load_visitor_append_only
    [PathComponent.key "resources", PathComponent.key "jobs",
      PathComponent.key "job0", PathComponent.key "description"]
    (Value.vnull ⟨"", 0, 0⟩) (Value.vstr "job description" ⟨"", 0, 0⟩)
  have h4 := h.2.2.2 (by decide)
  rw [h4]
  rfl

/-- C2: the init-phase visitor rejects delete, update and insert outside
`resources.jobs`; rejects a delete of a whole entry exactly one component
below the root; accepts deletes and updates strictly deeper than one
component below the root; and accepts an insert at any path under the
root. -/
theorem init_visitor_amend
    (p : DynPath) (l r : Value) :
    (startsWithPath p jobsPath = false →
      createInitOverrideVisitor.visitDelete p l
          = .error (unexpectedChange "delete" p)
      ∧ createInitOverrideVisitor.visitUpdate p l r
          = .error (unexpectedChange "update" p)
      ∧ createInitOverrideVisitor.visitInsert p r
          = .error (unexpectedChange "insert" p))
    ∧ (startsWithPath p jobsPath = true → p.length = jobsPath.length + 1 →
      createInitOverrideVisitor.visitDelete p l
          = .error (unexpectedChange "delete" p))
    ∧ (startsWithPath p jobsPath = true → jobsPath.length + 1 < p.length →
      createInitOverrideVisitor.visitDelete p l = .ok ()
      ∧ createInitOverrideVisitor.visitUpdate p l r = .ok r)
    ∧ (startsWithPath p jobsPath = true →
      createInitOverrideVisitor.visitInsert p r = .ok r) := by
  refine ⟨?_, ?_, ?_, ?_⟩
  · intro hp
    refine ⟨?_, ?_, ?_⟩ <;> simp [createInitOverrideVisitor, hp]
  · intro hp hl
    simp [createInitOverrideVisitor, hp, hl]
  · intro hp hl
    have hne : ¬ p.length = jobsPath.length + 1 := by omega
    constructor <;> simp [createInitOverrideVisitor, hp, hne]
  · intro hp
    simp [createInitOverrideVisitor, hp]

/-- Witness for C2 at the paths used by the tests: outside the root
(`include[0]`) everything is rejected; deleting the whole entry
`resources.jobs.job0` is rejected; deleting or updating
`resources.jobs.job0.name` succeeds; inserting `resources.jobs.job0`
succeeds. -/
theorem init_visitor_amend_witness :
    (startsWithPath [PathComponent.index 0] jobsPath = false
      ∧ createInitOverrideVisitor.visitUpdate [PathComponent.index 0]
          (Value.vint 42 ⟨"", 0, 0⟩) (Value.vint 1337 ⟨"", 0, 0⟩)
        = .error "unexpected change at \"[0]\" (update)")
    ∧ createInitOverrideVisitor.visitDelete
        [PathComponent.key "resources", PathComponent.key "jobs",
          PathComponent.key "job0"] (Value.vint 42 ⟨"", 0, 0⟩)
      = .error "unexpected change at \"resources.jobs.job0\" (delete)"
    ∧ createInitOverrideVisitor.visitDelete
        [PathComponent.key "resources", PathComponent.key "jobs",
          PathComponent.key "job0", PathComponent.key "name"]
        (Value.vint 42 ⟨"", 0, 0⟩)
      = .ok ()
    ∧ createInitOverrideVisitor.visitInsert
        [PathComponent.key "resources", PathComponent.key "jobs",
          PathComponent.key "job0"] (Value.vint 1337 ⟨"", 0, 0⟩)
      = .ok (Value.vint 1337 ⟨"", 0, 0⟩) := by
  have h0 := init_visitor_amend [PathComponent.index 0]
    (Value.vint 42 ⟨"", 0, 0⟩) (Value.vint 1337 ⟨"", 0, 0⟩)
  have h1 := init_visitor_amend
    [PathComponent.key "resources", PathComponent.key "jobs",
      PathComponent.key "job0"]
    (Value.vint 42 ⟨"", 0, 0⟩) (Value.vint 1337 ⟨"", 0, 0⟩)
  have h2 := init_visitor_amend
    [PathComponent.key "resources", PathComponent.key "jobs",
      PathComponent.key "job0", PathComponent.key "name"]
    (Value.vint 42 ⟨"", 0, 0⟩) (Value.vint 1337 ⟨"", 0, 0⟩)
  refine ⟨⟨by decide, ?_⟩, ?_, ?_, ?_⟩
  · rw [(h0.1 (by decide)).2.1]
    rfl
  · rw [h1.2.1 (by decide) (by decide)]
    rfl
  · exact (h2.2.2.1 (by decide) (by decide)).1
  · exact h1.2.2.2 (by decide)

/-- C10: the init-phase visitor permits a delete at the collection root
`resources.jobs` itself: the whole-entry rejection only fires one
component below the root, so deleting the entire jobs collection is not
rejected. -/
theorem init_visitor_delete_at_root (l : Value) :
    createInitOverrideVisitor.visitDelete jobsPath l = .ok () := by
  simp [createInitOverrideVisitor, jobsPath, startsWithPath]

end VisitorTheorems

section SchemaTheorems

lemma isIntegerValue_iff_den_eq_one (q : ℚ) :
    isIntegerValue q = true ↔ q.den = 1 := by
  constructor
  · intro h
    rw [isIntegerValue, beq_iff_eq] at h
    rw [h]
    exact Rat.den_intCast _
  · intro h
    rw [isIntegerValue, beq_iff_eq, ratTrunc, h]
    simp only [Nat.cast_one, Int.tdiv_one]
    exact ((Rat.den_eq_one_iff q).mp h).symm

lemma ratTrunc_eq_num_of_den_eq_one (q : ℚ) (h : q.den = 1) :
    ratTrunc q = q.num := by
  rw [ratTrunc, h]
  simp

/-- C3: for a key `k` declared `integer` in the schema whose config value
is the float `q`, `castFloatToInt` succeeds and replaces `q` by its exact
integer value iff `q` has zero fractional part (denominator one); otherwise
it fails with `NotAnIntegerError` carrying `k` and `q`; the source's
`isIntegerValue` test agrees with the zero-fractional-part condition, so
truncation is never applied to a non-integral value. -/
theorem castFloatToInt_integer_rule
    (k : String) (q : ℚ) (schema : Schema) (p : SchemaProperty)
    (hk : schema.lookup k = some p) (hp : p.type = PropertyType.integer) :
    (q.den = 1 →
      castFloatToInt [(k, CValue.cnum q)] schema
          = .ok [(k, CValue.cint q.num)]
        ∧ ((q.num : ℚ) = q))
    ∧ (q.den ≠ 1 →
      castFloatToInt [(k, CValue.cnum q)] schema
          = .error (.notAnInteger k q))
    ∧ (isIntegerValue q = true ↔ q.den = 1) := by
  refine ⟨?_, ?_, isIntegerValue_iff_den_eq_one q⟩
  · intro hden
    have hint : isIntegerValue q = true :=
      (isIntegerValue_iff_den_eq_one q).mpr hden
    constructor
    · simp [castFloatToInt, castEntry, hk, hp, hint,
        ratTrunc_eq_num_of_den_eq_one q hden]
    · exact Rat.coe_int_num_of_den_eq_one hden
  · intro hden
    have hint : isIntegerValue q = false :=
      Bool.eq_false_iff.mpr
        (fun hh => hden ((isIntegerValue_iff_den_eq_one q).mp hh))
    simp [castFloatToInt, castEntry, hk, hp, hint]

/-- Witness for C3: with `foo` declared `integer`, the float `5` is cast
to the exact integer `5`, and the float `5/2` makes the pass fail with
`NotAnIntegerError` carrying the key and the value. -/
theorem castFloatToInt_integer_rule_witness :
    (castFloatToInt [("foo", CValue.cnum 5)]
        ⟨[("foo", ⟨PropertyType.integer, "d"⟩)]⟩
      = .ok [("foo", CValue.cint 5)])
    ∧ (castFloatToInt [("foo", CValue.cnum fiveHalves)]
        ⟨[("foo", ⟨PropertyType.integer, "d"⟩)]⟩
      = .error (.notAnInteger "foo" fiveHalves)) := by
  constructor
  · have h := (castFloatToInt_integer_rule "foo" 5
      ⟨[("foo", ⟨PropertyType.integer, "d"⟩)]⟩
      ⟨PropertyType.integer, "d"⟩ rfl rfl).1 rfl
    have h5 : (5 : ℚ).num = 5 := rfl
    rw [h5] at h
    exact h.1
  · exact (castFloatToInt_integer_rule "foo" fiveHalves
      ⟨[("foo", ⟨PropertyType.integer, "d"⟩)]⟩
      ⟨PropertyType.integer, "d"⟩ rfl rfl).2.1 (by decide)

lemma checkConfigKeys_ok_iff (schema : Schema)
    (config : List (String × CValue)) :
    checkConfigKeys schema config = .ok () ↔
      ∀ kv ∈ config, ∃ p, schema.lookup kv.1 = some p
        ∧ validateType kv.2 p.type = true := by
  induction config with
  | nil => simp [checkConfigKeys]
  | cons kv rest ih =>
    obtain ⟨k, v⟩ := kv
    cases hl : schema.lookup k with
    | none =>
      simp only [checkConfigKeys, hl]
      constructor
      · intro h
        exact Except.noConfusion h
      · intro h
        obtain ⟨p, hp, _⟩ := h (k, v) (List.mem_cons_self _ _)
        rw [hl] at hp
        exact Option.noConfusion hp
    | some fieldMetadata =>
      by_cases hv : validateType v fieldMetadata.type = true
      · simp only [checkConfigKeys, hl, hv, if_true, ih]
        constructor
        · intro h kv hkv
          rcases List.mem_cons.mp hkv with heq | hmem
          · subst heq
            exact ⟨fieldMetadata, hl, hv⟩
          · exact h kv hmem
        · intro h kv hkv
          exact h kv (List.mem_cons_of_mem _ hkv)
      · simp only [checkConfigKeys, hl]
        rw [if_neg hv]
        constructor
        · intro h
          exact Except.noConfusion h
        · intro h
          obtain ⟨p, hp, hval⟩ := h (k, v) (List.mem_cons_self _ _)
          rw [hl] at hp
          obtain rfl := Option.some_injective _ hp
          exact absurd hval hv

lemma checkSchemaKeys_ok_iff (config : List (String × CValue))
    (props : List (String × SchemaProperty)) :
    checkSchemaKeys config props = .ok () ↔
      ∀ kp ∈ props, (lookupConfig config kp.1).isSome = true := by
  induction props with
  | nil => simp [checkSchemaKeys]
  | cons kp rest ih =>
    obtain ⟨k, pr⟩ := kp
    cases hl : lookupConfig config k with
    | none =>
      simp only [checkSchemaKeys, hl]
      constructor
      · intro h
        exact Except.noConfusion h
      · intro h
        have := h (k, pr) (List.mem_cons_self _ _)
        rw [hl] at this
        exact Bool.noConfusion this
    | some v =>
      simp only [checkSchemaKeys, hl, ih]
      constructor
      · intro h kp hkp
        rcases List.mem_cons.mp hkp with heq | hmem
        · subst heq
          rw [hl]
          rfl
        · exact h kp hmem
      · intro h kp hkp
        exact h kp (List.mem_cons_of_mem _ hkp)

/-- C4: strict-mode validation succeeds iff every config key is declared
in the schema with a value passing its declared type's validator, and
every schema key is present in the config; in particular it fails whenever
the config holds an undeclared key and whenever the schema declares a key
absent from the config. -/
theorem ValidateConfig_strict (schema : Schema)
    (config : List (String × CValue)) :
    (ValidateConfig schema config = .ok () ↔
      (∀ kv ∈ config, ∃ p, schema.lookup kv.1 = some p
          ∧ validateType kv.2 p.type = true)
      ∧ (∀ kp ∈ schema.properties, (lookupConfig config kp.1).isSome = true))
    ∧ (∀ kv ∈ config, schema.lookup kv.1 = none →
        ValidateConfig schema config ≠ .ok ())
    ∧ (∀ kp ∈ schema.properties, lookupConfig config kp.1 = none →
        ValidateConfig schema config ≠ .ok ()) := by
  have hmain : ValidateConfig schema config = .ok () ↔
      (∀ kv ∈ config, ∃ p, schema.lookup kv.1 = some p
          ∧ validateType kv.2 p.type = true)
      ∧ (∀ kp ∈ schema.properties, (lookupConfig config kp.1).isSome = true) := by
    rw [← checkConfigKeys_ok_iff, ← checkSchemaKeys_ok_iff]
    unfold ValidateConfig
    cases h1 : checkConfigKeys schema config with
    | error e =>
      constructor
      · intro h
        exact Except.noConfusion h
      · rintro ⟨ha, _⟩
        exact Except.noConfusion ha
    | ok u =>
      obtain rfl : u = () := rfl
      simp
  refine ⟨hmain, ?_, ?_⟩
  · intro kv hkv hnone hok
    obtain ⟨p, hp, _⟩ := (hmain.mp hok).1 kv hkv
    rw [hnone] at hp
    exact Option.noConfusion hp
  · intro kp hkp hnone hok
    have := (hmain.mp hok).2 kp hkp
    rw [hnone] at this
    exact Bool.noConfusion this

/-- Witness for C4: a matching schema/config pair validates; adding the
undeclared key `extra` fails; leaving the declared key `foo` out of the
config fails. -/
theorem ValidateConfig_strict_witness :
    (ValidateConfig ⟨[("foo", ⟨PropertyType.string, "d"⟩)]⟩
        [("foo", CValue.cstr "x")] = .ok ())
    ∧ (ValidateConfig ⟨[("foo", ⟨PropertyType.string, "d"⟩)]⟩
        [("foo", CValue.cstr "x"), ("extra", CValue.cbool true)] ≠ .ok ())
    ∧ (ValidateConfig ⟨[("foo", ⟨PropertyType.string, "d"⟩)]⟩ [] ≠ .ok ()) := by
  refine ⟨?_, ?_, ?_⟩
  · exact (ValidateConfig_strict ⟨[("foo", ⟨PropertyType.string, "d"⟩)]⟩
      [("foo", CValue.cstr "x")]).1.mpr (by decide)
  · exact (ValidateConfig_strict ⟨[("foo", ⟨PropertyType.string, "d"⟩)]⟩
      [("foo", CValue.cstr "x"), ("extra", CValue.cbool true)]).2.1
      ("extra", CValue.cbool true) (by decide) (by decide)
  · exact (ValidateConfig_strict ⟨[("foo", ⟨PropertyType.string, "d"⟩)]⟩
      []).2.2 ("foo", ⟨PropertyType.string, "d"⟩) (by decide) (by decide)

end SchemaTheorems

section PipelineTheorems

mutual

lemma allLoc_loadValue (f : String) : ∀ r : Raw, allLocFile f (loadValue f r) = true
  | .rnull => by simp [loadValue, allLocFile]
  | .rbool b => by simp [loadValue, allLocFile]
  | .rint n => by simp [loadValue, allLocFile]
  | .rnum q => by simp [loadValue, allLocFile]
  | .rstr s => by simp [loadValue, allLocFile]
  | .rseq xs => by
      simp only [loadValue, allLocFile, Bool.and_eq_true, beq_self_eq_true]
      exact ⟨trivial, allLoc_loadList f xs⟩
  | .rmap es => by
      simp only [loadValue, allLocFile, Bool.and_eq_true, beq_self_eq_true]
      exact ⟨trivial, allLoc_loadEntries f es⟩

lemma allLoc_loadList (f : String) :
    ∀ xs : List Raw, allLocFileList f (loadValueList f xs) = true
  | [] => rfl
  | x :: xs => by
      simp only [loadValueList, allLocFileList, Bool.and_eq_true]
      exact ⟨allLoc_loadValue f x, allLoc_loadList f xs⟩

lemma allLoc_loadEntries (f : String) :
    ∀ es : List (String × Raw), allLocFileEntries f (loadValueEntries f es) = true
  | [] => rfl
  | (k, x) :: xs => by
      simp only [loadValueEntries, allLocFileEntries, Bool.and_eq_true]
      exact ⟨allLoc_loadValue f x, allLoc_loadEntries f xs⟩

end

/-- C5 counterexample: the virtual location file of loaded plugin output
is `<root>/__generated_by_pydabs__.yml`, not `<root>/__generated__.yml` as
claimed: at project root `/project` the loaded value's location file
differs from the claimed path. -/
theorem virtual_path_file_name_counterexample :
    (loadValue (virtualPath "/project") Raw.rnull).loc.file
      ≠ "/project/__generated__.yml" := by
  simp only [loadValue, virtualPath, Value.loc]
  decide

/-- C5 (amended): every value loaded from the plugin's output file carries
`<project-root>/__generated_by_pydabs__.yml` as its location file, and in
the init-phase scenario the merged document gives the plugin-added
`description` the virtual generated-file location while the untouched
`name` keeps its `databricks.yml` location. -/
theorem virtual_path_locations :
    (∀ root : String, ∀ raw : Raw,
      allLocFile (virtualPath root) (loadValue (virtualPath root) raw) = true)
    ∧ virtualPath projectRoot = projectRoot ++ "/__generated_by_pydabs__.yml"
    ∧ overrideValue [] baseDoc (loadValue (virtualPath projectRoot) pluginRaw)
        createInitOverrideVisitor = .ok mergedDoc
    ∧ (getAtPath mergedDoc nameFieldPath).map (fun v => v.loc.file)
        = some "databricks.yml"
    ∧ (getAtPath mergedDoc descFieldPath).map (fun v => v.loc.file)
        = some (virtualPath projectRoot) := by
  refine ⟨fun root raw => allLoc_loadValue (virtualPath root) raw, rfl, ?_, rfl, rfl⟩
  simp [baseDoc, pluginRaw, mergedDoc, loadValue, loadValueEntries,
    overrideValue, overrideLeftEntries, insertNewEntries, lookupEntry,
    valueEq, createInitOverrideVisitor, startsWithPath, jobsPath]

/-- Helper: `find?` returns `a` when `a` is in the list, satisfies the
predicate, and is the only element doing so. -/
lemma find?_eq_some_of_mem_unique {α : Type} (p : α → Bool) :
    ∀ (l : List α) (a : α), a ∈ l → p a = true →
      (∀ b ∈ l, p b = true → b = a) → l.find? p = some a := by
  intro l
  induction l with
  | nil =>
    intro a ha _ _
    exact absurd ha (List.not_mem_nil a)
  | cons x xs ih =>
    intro a ha hpa huniq
    by_cases hx : p x = true
    · rw [List.find?_cons_of_pos _ hx, huniq x (List.mem_cons_self _ _) hx]
    · rw [List.find?_cons_of_neg _ hx]
      rcases List.mem_cons.mp ha with rfl | hmem
      · exact absurd hpa hx
      · exact ih a hmem hpa (fun b hb hpb => huniq b (List.mem_cons_of_mem _ hb) hpb)

/-- C6: when the name `n` is declared at least twice across the scanned
files (whatever the kinds) and no other name is duplicated, the conflict
detector fails with the single error listing every occurrence of `n`, in
scan order, in the exact `multiple resources named ... (kind at
file:line:col, ...)` form rendered by `conflictMessage`. -/
theorem conflict_detector_reports_duplicates
    (ds : List ResourceDecl) (n : String)
    (hdup : 2 ≤ nameCount ds n)
    (honly : ∀ m ∈ ds.map (fun d => d.name), m ≠ n → nameCount ds m ≤ 1) :
    checkUniqueResourceNames ds
      = .error (conflictMessage n (ds.filter (fun d => d.name == n))) := by
  have hmem : n ∈ ds.map (fun d => d.name) := by
    have hlen : 0 < (ds.filter (fun d => d.name == n)).length := by
      have := hdup
      unfold nameCount at this
      omega
    obtain ⟨d, hd⟩ := List.exists_mem_of_length_pos hlen
    have hdf := List.mem_filter.mp hd
    rw [List.mem_map]
    exact ⟨d, hdf.1, by simpa using hdf.2⟩
  have hfind : firstDup ds = some n := by
    unfold firstDup
    apply find?_eq_some_of_mem_unique _ _ _ hmem (decide_eq_true hdup)
    intro b hb hpb
    by_contra hne
    have hle := honly b hb hne
    have hge := of_decide_eq_true hpb
    omega
  rw [checkUniqueResourceNames, hfind]

/-- Witness for C6 at the no-subconfigurations test data: `foo` declared
as a job and as a pipeline fails with exactly the error string the test
expects. -/
theorem conflict_detector_reports_duplicates_witness :
    2 ≤ nameCount conflictDemo "foo"
    ∧ checkUniqueResourceNames conflictDemo
      = .error "multiple resources named foo (job at conflicting_resource_ids/no_subconfigurations/databricks.yml:10:7, pipeline at conflicting_resource_ids/no_subconfigurations/databricks.yml:13:7)" := by
  have h := conflict_detector_reports_duplicates conflictDemo "foo"
    (by decide) (by decide)
  refine ⟨by decide, ?_⟩
  rw [h]
  rfl

/-- C7: if normalization of the plugin output produced any warning
diagnostic, the phase fails instead of merging — the document comes back
unchanged with an error — and when there is no error-severity diagnostic
the fatal error's message carries the first warning's summary. -/
theorem warning_escalated_to_error
    (ph : Phase) (doc output : Value) (ds : List Diagnostic)
    (w : Diagnostic) (hw : w ∈ ds) (hsev : w.severity = Severity.sevWarning) :
    (∃ msg, pythonMutatorStep ph doc output ds = (doc, some msg))
    ∧ (firstErrorDiag ds = none →
        ∃ w0, (warningDiags ds).head? = some w0
          ∧ pythonMutatorStep ph doc output ds
            = (doc, some ("failed to normalize Python mutator output: "
                ++ w0.summary))) := by
  have hwmem : w ∈ warningDiags ds :=
    List.mem_filter.mpr ⟨hw, by simp [hsev]⟩
  have hwne : warningDiags ds ≠ [] := List.ne_nil_of_mem hwmem
  cases he : firstErrorDiag ds with
  | some d =>
    constructor
    · exact ⟨"failed to normalize Python mutator output: " ++ d.summary,
        by simp [pythonMutatorStep, mutateConfig, processOutput, he]⟩
    · intro h
      exact Option.noConfusion h
  | none =>
    cases hwd : warningDiags ds with
    | nil => exact absurd hwd hwne
    | cons w0 rest =>
      constructor
      · exact ⟨"failed to normalize Python mutator output: " ++ w0.summary,
          by simp [pythonMutatorStep, mutateConfig, processOutput, he, hwd]⟩
      · intro _
        refine ⟨w0, rfl, ?_⟩
        simp [pythonMutatorStep, mutateConfig, processOutput, he, hwd]

/-- Witness for C7 at the bad-output test data: a single warning
`unknown field: unknown_property` makes the load-phase step fail with the
exact message the test expects, leaving the document unchanged. -/
theorem warning_escalated_to_error_witness :
    (⟨Severity.sevWarning, "unknown field: unknown_property"⟩ : Diagnostic)
      ∈ [(⟨Severity.sevWarning, "unknown field: unknown_property"⟩ : Diagnostic)]
    ∧ pythonMutatorStep Phase.load (Value.vnull ⟨"databricks.yml", 1, 1⟩)
        (Value.vnull ⟨"gen", 0, 0⟩)
        [⟨Severity.sevWarning, "unknown field: unknown_property"⟩]
      = (Value.vnull ⟨"databricks.yml", 1, 1⟩,
         some "failed to normalize Python mutator output: unknown field: unknown_property") := by
  obtain ⟨w0, hw0, hstep⟩ :=
    (warning_escalated_to_error Phase.load (Value.vnull ⟨"databricks.yml", 1, 1⟩)
      (Value.vnull ⟨"gen", 0, 0⟩)
      [⟨Severity.sevWarning, "unknown field: unknown_property"⟩]
      ⟨Severity.sevWarning, "unknown field: unknown_property"⟩
      (List.mem_singleton.mpr rfl) rfl).2 rfl
  have hcomp : (warningDiags
      [(⟨Severity.sevWarning, "unknown field: unknown_property"⟩ : Diagnostic)]).head?
      = some ⟨Severity.sevWarning, "unknown field: unknown_property"⟩ := rfl
  have hw0eq : w0 = ⟨Severity.sevWarning, "unknown field: unknown_property"⟩ :=
    (Option.some_injective _ (hcomp.symm.trans hw0)).symm
  rw [hw0eq] at hstep
  exact ⟨List.mem_singleton.mpr rfl, hstep⟩

lemma mkTempName_length (n : Nat) : (mkTempName n).length = 12 + n := by
  rw [mkTempName, String.length_append, String.length_append]
  have h1 : (String.mk (List.replicate n 'x')).length = n := by
    show (List.replicate n 'x').length = n
    exact List.length_replicate n _
  have h2 : ("/tmp/" : String).length = 5 := rfl
  have h3 : ("-pydabs" : String).length = 7 := rfl
  rw [h1, h2, h3]
  omega

/-- C8: with the cache-root environment variable set, `createCacheDir`
returns the fixed subdirectory `<tempdir>/default/pydabs`, the same on
repeated calls with the same temp-root; with the variable absent, two
successive calls return distinct fresh temporary directories. -/
theorem createCacheDir_stable_or_fresh :
    (∀ t : String, ∀ s s' : Nat,
      (createCacheDir (some t) s).1 = t ++ "/default/pydabs"
      ∧ (createCacheDir (some t) s).1 = (createCacheDir (some t) s').1)
    ∧ (∀ s : Nat, (createCacheDir none s).1
        ≠ (createCacheDir none (createCacheDir none s).2).1) := by
  constructor
  · intro t s s'
    exact ⟨rfl, rfl⟩
  · intro s
    show mkTempName s ≠ mkTempName (s + 1)
    intro h
    have hlen := congrArg String.length h
    rw [mkTempName_length, mkTempName_length] at hlen
    omega

/-- Witness for C8 at concrete inputs: with temp-root `/tmp/x` the cache
dir is `/tmp/x/default/pydabs` regardless of the freshness state, and
without a temp-root two successive calls differ. -/
theorem createCacheDir_stable_or_fresh_witness :
    (createCacheDir (some "/tmp/x") 3).1 = "/tmp/x/default/pydabs"
    ∧ (createCacheDir (some "/tmp/x") 3).1 = (createCacheDir (some "/tmp/x") 7).1
    ∧ (createCacheDir none 0).1
        ≠ (createCacheDir none (createCacheDir none 0).2).1 := by
  have h1 := createCacheDir_stable_or_fresh.1 "/tmp/x" 3 7
  have h2 := createCacheDir_stable_or_fresh.2 0
  exact ⟨h1.1, h1.2, h2⟩

/-- C9: with the experimental section absent or PyDABs disabled, `Apply`
returns no diagnostics, leaves the document unchanged and never reaches
the external-process machinery; with PyDABs enabled but an empty
`venv_path`, it fails with the exact configuration error, again without
touching the document or spawning a process. -/
theorem pydabs_gate (doc : Value) (run : Value → Except String Value) :
    applyPythonMutator none doc run = (doc, none, false)
    ∧ (∀ e : Experimental, e.pydabs.enabled = false →
        applyPythonMutator (some e) doc run = (doc, none, false))
    ∧ (∀ e : Experimental, e.pydabs.enabled = true → e.pydabs.venvPath = "" →
        applyPythonMutator (some e) doc run
          = (doc, some "\"experimental.pydabs.enabled\" can only be used when \"experimental.pydabs.venv_path\" is set", false)) := by
  refine ⟨?_, ?_, ?_⟩
  · simp [applyPythonMutator, getExperimental]
  · intro e he
    simp [applyPythonMutator, getExperimental, he]
  · intro e he hv
    simp [applyPythonMutator, getExperimental, he, hv]

/-- Witness for C9: at a concrete document, disabled PyDABs is a no-op and
enabled PyDABs with empty `venv_path` yields exactly the configuration
error. -/
theorem pydabs_gate_witness :
    applyPythonMutator none (Value.vnull ⟨"databricks.yml", 1, 1⟩)
        (fun v => .ok v)
      = (Value.vnull ⟨"databricks.yml", 1, 1⟩, none, false)
    ∧ applyPythonMutator (some ⟨⟨true, ""⟩⟩)
        (Value.vnull ⟨"databricks.yml", 1, 1⟩) (fun v => .ok v)
      = (Value.vnull ⟨"databricks.yml", 1, 1⟩,
         some "\"experimental.pydabs.enabled\" can only be used when \"experimental.pydabs.venv_path\" is set", false) := by
  have h := pydabs_gate (Value.vnull ⟨"databricks.yml", 1, 1⟩) (fun v => .ok v)
  exact ⟨h.1, h.2.2 ⟨⟨true, ""⟩⟩ rfl rfl⟩

end PipelineTheorems

end Spec2Proof
